import Mathlib

/-!
Shallow embedding of the NEET-Cortex `pdf_checker` application (Python) for
checking its natural-language specification.

JSON documents are embedded as the inductive type `JValue`; Python `dict`s
coming from `json.load` are association lists with string keys, where lookup
and item assignment use the first occurrence of a key (Python dictionaries
never hold duplicate keys, so this agrees with them on every state the
program can build).  Python's unbounded `int` is `Int`.  The filesystem is a
map from path strings to `FileContent` (missing file, file whose contents are
not valid JSON, or a parsed JSON document); `json.dump` followed by a
`json.load` of the written file returns an equal document, so a written file
stores the document itself.  Exceptions of fallible code are explicit
(`Except`/outcome types); `try/except` blocks become case analysis on them.
-/

namespace PdfChecker

/-- A JSON value: the data model of the OCR document, the bbox document and
the session record. -/
inductive JValue where
  | null
  | bool (b : Bool)
  | int (n : Int)
  | str (s : String)
  | arr (elems : List JValue)
  | obj (fields : List (String × JValue))

/-- Lookup in a Python dict (first binding of the key wins). -/
def alookup (l : List (String × JValue)) (k : String) : Option JValue :=
  match l with
  | [] => none
  | (k1, v) :: rest => if k1 = k then some v else alookup rest k

/-- Python `d[k] = v`: replace the binding of `k` in place if present,
append it otherwise. -/
def aset (l : List (String × JValue)) (k : String) (v : JValue) :
    List (String × JValue) :=
  match l with
  | [] => [(k, v)]
  | (k1, v1) :: rest =>
      if k1 = k then (k, v) :: rest else (k1, v1) :: aset rest k v

/-- Python truthiness of a JSON value (`if not data: ...`). -/
def jTruthy : JValue → Bool
  | .null => false
  | .bool b => b
  | .int n => n != 0
  | .str s => s != ""
  | .arr elems => !elems.isEmpty
  | .obj fields => !fields.isEmpty

/-- What a path names on disk: nothing, a file that is not valid JSON, or a
file holding a JSON document. -/
inductive FileContent where
  | missing
  | malformed
  | json (v : JValue)

/-- The filesystem: contents by path. -/
def FS := String → FileContent

theorem alookup_aset_self (l : List (String × JValue)) (k : String) (v : JValue) :
    alookup (aset l k v) k = some v := by
  induction l with
  | nil => simp [aset, alookup]
  | cons hd tl ih =>
      obtain ⟨k1, v1⟩ := hd
      by_cases h : k1 = k
      · simp [aset, alookup, h]
      · simp [aset, alookup, h, ih]

theorem alookup_aset_ne (l : List (String × JValue)) (k k2 : String) (v : JValue)
    (h : k2 ≠ k) : alookup (aset l k v) k2 = alookup l k2 := by
  induction l with
  | nil =>
      simp only [aset, alookup]
      rw [if_neg (fun hh => h hh.symm)]
  | cons hd tl ih =>
      obtain ⟨k1, v1⟩ := hd
      by_cases hk : k1 = k
      · subst hk
        simp only [aset, if_pos rfl, alookup]
        rw [if_neg (fun hh => h hh.symm), if_neg (fun hh => h hh.symm)]
      · simp only [aset, if_neg hk, alookup]
        by_cases h2 : k1 = k2
        · simp [h2]
        · simp [h2, ih]

/-! ### Python `int(...)` conversion

`int()` applied to a string accepts surrounding whitespace, an optional sign
and a run of ASCII digits with single interior underscores; anything else
raises `ValueError`.  Applied to a `bool` it yields 0 or 1 (Python's `bool`
is a subclass of `int`); applied to `None`, a list or a dict it raises
`TypeError`.  JSON numbers are embedded as integers. -/

/-- Drop leading and trailing whitespace from a character list. -/
def stripChars (cs : List Char) : List Char :=
  ((cs.dropWhile Char.isWhitespace).reverse.dropWhile Char.isWhitespace).reverse

/-- Model of Python `str.strip()`, as a character list. -/
def pyStrip (s : String) : List Char :=
  stripChars s.toList

/-- No two consecutive underscores in the character list. -/
def noDoubleUnderscore : List Char → Bool
  | '_' :: '_' :: _ => false
  | _ :: rest => noDoubleUnderscore rest
  | [] => true

/-- A nonempty run of ASCII digits with single interior underscores:
the digit part accepted by Python's `int(str)`. -/
def underscoredDigits (cs : List Char) : Bool :=
  !cs.isEmpty &&
    cs.all (fun c => c.isDigit || c == '_') &&
    cs.head? != some '_' &&
    cs.getLast? != some '_' &&
    noDoubleUnderscore cs

/-- Numeric value of a digit run, underscores skipped. -/
def digitsVal (cs : List Char) : Int :=
  (cs.filter (fun c => c != '_')).foldl
    (fun a c => 10 * a + (Int.ofNat (c.toNat - Char.toNat '0'))) 0

/-- Python `int` applied to the string whose characters are `cs`: strip
whitespace, take an optional sign, then require an underscored digit run;
`none` models `ValueError`. -/
def pyIntOfChars (cs : List Char) : Option Int :=
  match stripChars cs with
  | '+' :: rest => if underscoredDigits rest then some (digitsVal rest) else none
  | '-' :: rest => if underscoredDigits rest then some (-(digitsVal rest)) else none
  | body => if underscoredDigits body then some (digitsVal body) else none

/-- Python `int(s)` on a string: `none` models `ValueError`. -/
def pyIntOfString (s : String) : Option Int :=
  pyIntOfChars s.toList

/-- Python `int(x)` on a JSON value: `none` models `ValueError`/`TypeError`
(both are caught together wherever the program calls `int`). -/
def pyIntOfJValue : JValue → Option Int
  | .int n => some n
  | .bool b => some (if b then 1 else 0)
  | .str s => pyIntOfString s
  | _ => none

/-- Python `len(x)` for values that have a length; `none` models the
`TypeError` raised by `len` on numbers, booleans and `None`. -/
def pyLen : JValue → Option Nat
  | .str s => some s.length
  | .arr elems => some elems.length
  | .obj fields => some fields.length
  | _ => none

/-- Exceptions the embedded code can raise. -/
inductive PyExc where
  | attributeError
  | typeError

/-! ### `DataValidator.validate_question_data` (data/validator.py)

The source appends error strings in order: empty question text, fewer than
two options, then the `correctOption` check guarded by
`try ... except (ValueError, TypeError)`.  `data.get('questionText', '')
.strip()` raises `AttributeError` when the entry is present but not a
string, and `len(options)` raises `TypeError` when the `options` entry has
no length; neither exception is caught inside the function, so the result
type is `Except`. -/

/-- Model of `DataValidator.validate_question_data(data)`: returns
`(len(errors) == 0, errors)` or propagates an uncaught exception. -/
def validate_question_data (data : List (String × JValue)) :
    Except PyExc (Bool × List String) :=
  match (alookup data "questionText").getD (.str "") with
  | .str qt =>
      let errs1 : List String :=
        if (pyStrip qt).isEmpty then ["Question text cannot be empty"] else []
      match pyLen ((alookup data "options").getD (.arr [])) with
      | none => .error .typeError
      | some nOpts =>
          let errs2 := errs1 ++
            (if nOpts < 2 then ["At least 2 options required"] else [])
          let errs3 := errs2 ++
            (match pyIntOfJValue ((alookup data "correctOption").getD (.int 0)) with
             | some v =>
                 if 1 ≤ v ∧ v ≤ (nOpts : Int) then []
                 else ["Correct option index out of range"]
             | none => ["Correct option must be a valid number"])
          .ok (errs3.isEmpty, errs3)
  | _ => .error .attributeError

/-! ### `DataManager` (data/data_manager.py)

`ocr_data`/`bbox_data` are `Option JValue` (`none` is Python `None`, before
any load).  The three paths are `Option String`; Python's truthiness test
`not all([...])` treats both `None` and `""` as falsy. -/

/-- Truthiness of an optional path string. -/
def truthyPath : Option String → Bool
  | none => false
  | some s => s != ""

/-- State of a `DataManager`: paths fixed at construction, loaded data. -/
structure DataManager where
  pdf_path : Option String
  bbox_json_path : Option String
  ocr_json_path : Option String
  docOpen : Bool
  bbox_data : Option JValue
  ocr_data : Option JValue

/-- Model of `DataManager.load_all_data`: guard on the three paths, then
`fitz.open`, `json.load(bbox)`, `json.load(ocr)` inside one `try` whose
`except Exception` returns `False`.  `pdfOpenOK p` says `fitz.open(p)`
succeeds; a missing or malformed JSON file makes the corresponding
`open`/`json.load` raise.  Mutations made before a failure are kept, as in
the source. -/
def load_all_data (fs : FS) (pdfOpenOK : String → Bool) (dm : DataManager) :
    DataManager × Bool :=
  if truthyPath dm.pdf_path && truthyPath dm.bbox_json_path &&
      truthyPath dm.ocr_json_path then
    match dm.pdf_path, dm.bbox_json_path, dm.ocr_json_path with
    | some pp, some bp, some op =>
        if pdfOpenOK pp then
          let dm1 := { dm with docOpen := true }
          match fs bp with
          | .json bv =>
              let dm2 := { dm1 with bbox_data := some bv }
              match fs op with
              | .json ov => ({ dm2 with ocr_data := some ov }, true)
              | _ => (dm2, false)
          | _ => (dm1, false)
        else (dm, false)
    | _, _, _ => (dm, false)
  else (dm, false)

/-- Model of `DataManager.save_ocr_data`: `json.dump(self.ocr_data, f)` to
`ocr_json_path` (falsy path returns `False`); `json.dump` of `None` writes
the JSON document `null`. -/
def save_ocr_data (fs : FS) (ocr_json_path : Option String)
    (ocr_data : Option JValue) : FS × Bool :=
  match ocr_json_path with
  | none => (fs, false)
  | some p =>
      if p = "" then (fs, false)
      else
        ((fun q => if q = p then .json (ocr_data.getD .null) else fs q), true)

/-! ### `QuestionManager` data access (data/question_manager.py) -/

/-- Model of `QuestionManager.get_question_ocr_data(question_key)`: when `ocr_data`
is a truthy `dict`, `ocr_data.get("questions", {}).get("qn_<k>", {})`;
otherwise `{}`.  When the `"questions"` entry is present but not a dict,
`.get` on it raises `AttributeError`, which the function does not catch. -/
def get_question_ocr_data (ocr_data : Option JValue) (question_key : String) :
    Except PyExc JValue :=
  match ocr_data with
  | some (.obj o) =>
      if !o.isEmpty then
        match alookup o "questions" with
        | none => .ok (.obj [])
        | some (.obj qs) => .ok ((alookup qs ("qn_" ++ question_key)).getD (.obj []))
        | some _ => .error .attributeError
      else .ok (.obj [])
  | _ => .ok (.obj [])

/-- Model of `QuestionManager.update_question_ocr_data(question_key, data)`: a
non-dict `ocr_data` is replaced by `{}`; a missing `"questions"` entry is
created; then `ocr_data["questions"]["qn_<k>"] = data`.  Item assignment on
a non-dict `"questions"` value raises `TypeError`, caught by the
surrounding `except`, which returns `False` leaving the state unchanged. -/
def update_question_ocr_data (ocr_data : Option JValue) (question_key : String)
    (data : JValue) : Option JValue × Bool :=
  let o : List (String × JValue) :=
    match ocr_data with
    | some (.obj fields) => fields
    | _ => []
  match alookup o "questions" with
  | some (.obj qs) =>
      (some (.obj (aset o "questions" (.obj (aset qs ("qn_" ++ question_key) data)))),
       true)
  | some _ => (some (.obj o), false)
  | none =>
      (some (.obj (aset o "questions" (.obj [("qn_" ++ question_key, data)]))),
       true)

/-- The record stored for `question_key` (used to state what "no stored
entry" means): the `"qn_<k>"` binding of the `"questions"` dict, when
`ocr_data` is a dict holding one. -/
def storedEntry (ocr_data : Option JValue) (question_key : String) : Option JValue :=
  match ocr_data with
  | some (.obj o) =>
      match alookup o "questions" with
      | some (.obj qs) => alookup qs ("qn_" ++ question_key)
      | _ => none
  | _ => none

/-- True unless `ocr_data` is a dict whose `"questions"` entry is present
but not itself a dict (the one shape on which `get_question_ocr_data`
raises). -/
def questionsFieldOK : Option JValue → Bool
  | some (.obj o) =>
      match alookup o "questions" with
      | some (.obj _) => true
      | some _ => false
      | none => true
  | _ => true

/-! ### `QuestionManager` navigation (data/question_manager.py)

`current_question_index` is a Python `int`, so `Int` here; `question_keys`
is a list of strings.  A freshly constructed manager has `[]` and `0`. -/

/-- Mutable state of a `QuestionManager`. -/
structure QMState where
  question_keys : List String
  current_question_index : Int

/-- State right after `QuestionManager.__init__`. -/
def initQMState : QMState := ⟨[], 0⟩

/-- Model of `can_go_previous`: `current_question_index > 0`. -/
def can_go_previous (s : QMState) : Bool :=
  0 < s.current_question_index

/-- Model of `can_go_next`: `current_question_index < len(question_keys) - 1`. -/
def can_go_next (s : QMState) : Bool :=
  s.current_question_index < (s.question_keys.length : Int) - 1

/-- Model of `go_to_question(index)`: set the index when `0 <= index < len`, else
return `False` unchanged. -/
def go_to_question (s : QMState) (index : Int) : QMState × Bool :=
  if 0 ≤ index ∧ index < (s.question_keys.length : Int) then
    ({ s with current_question_index := index }, true)
  else (s, false)

/-- Model of `go_to_previous`. -/
def go_to_previous (s : QMState) : QMState × Bool :=
  if can_go_previous s then
    ({ s with current_question_index := s.current_question_index - 1 }, true)
  else (s, false)

/-- Model of `go_to_next`. -/
def go_to_next (s : QMState) : QMState × Bool :=
  if can_go_next s then
    ({ s with current_question_index := s.current_question_index + 1 }, true)
  else (s, false)

/-- For one key of the `"questions"` dict: `int(key[3:])` when the key
starts with `"qn_"`, `none` when it does not or when `int` raises
`ValueError` (which `initialize_questions` catches, skipping the key). -/
def parseQnKey (k : String) : Option Int :=
  match k.toList with
  | 'q' :: 'n' :: '_' :: rest => pyIntOfChars rest
  | _ => none

/-- The key list `initialize_questions` computes from the `"questions"`
dict: `int(key[3:])` on every key starting with `"qn_"`, `sorted`, then
`str` of each.  Python's `sorted` is modeled by the stable
`List.insertionSort`. -/
def computeQuestionKeys (qs : List (String × JValue)) : List String :=
  (List.insertionSort (fun a b => a ≤ b)
      ((qs.map Prod.fst).filterMap parseQnKey)).map
    (fun n => toString n)

/-- What `initialize_questions` does before touching the state. -/
inductive InitOutcome where
  | raise
  | fail
  | keysSet (ks : List String)
deriving DecidableEq

/-- Model of `QuestionManager.initialize_questions`, up to its effect: the guard
`not ocr_data or "questions" not in ocr_data` runs outside the `try`, so a
truthy non-iterable `ocr_data` (a number or `True`) raises `TypeError`
(`raise`); a falsy value, an iterable without a usable `"questions"` dict,
or an exception inside the `try` returns `False` with the keys untouched
(`fail`); otherwise the keys are set (`keysSet`) and the call returns
`len(question_keys) > 0`.  A truthy string or list passes the membership
test only to fail on `ocr_data['questions']` inside the `try`. -/
def initialize_questions_outcome (ocr_data : Option JValue) : InitOutcome :=
  match ocr_data with
  | none => .fail
  | some v =>
      if jTruthy v then
        match v with
        | .obj o =>
            match alookup o "questions" with
            | some (.obj qs) => .keysSet (computeQuestionKeys qs)
            | some _ => .fail
            | none => .fail
        | .arr _ => .fail
        | .str _ => .fail
        | _ => .raise
      else .fail

/-- Model of `initialize_questions` as a step on the navigation state (an uncaught
exception leaves the state as it was, like a `False` return). -/
def initialize_questions_step (ocr_data : Option JValue) (s : QMState) :
    QMState × Bool :=
  match initialize_questions_outcome ocr_data with
  | .raise => (s, false)
  | .fail => (s, false)
  | .keysSet ks => ({ s with question_keys := ks }, !ks.isEmpty)

/-- The four navigation-state calls of the claim about reachable states. -/
inductive QMOp where
  | init
  | goto (i : Int)
  | next
  | prev

/-- One call's effect on the state (`ocr_data` is fixed: none of the four
calls writes it). -/
def qmStep (ocr_data : Option JValue) (s : QMState) : QMOp → QMState
  | .init => (initialize_questions_step ocr_data s).1
  | .goto i => (go_to_question s i).1
  | .next => (go_to_next s).1
  | .prev => (go_to_previous s).1

/-- The state reached from a fresh manager by a call sequence. -/
def qmRun (ocr_data : Option JValue) (ops : List QMOp) : QMState :=
  ops.foldl (qmStep ocr_data) initQMState

/-! ### `SessionManager` (app/session_manager.py)

`save_session` dumps `{"ocr_json_path": p, "last_question_index": i}` to
the session file; `load_session` returns `None` when the file does not
exist or does not parse, else the parsed document.  The dump/parse round
trip of the JSON library returns an equal document, so the write stores
the document itself. -/

/-- Model of `SessionManager.save_session(ocr_json_path, question_index)`: the new
filesystem after the write. -/
def save_session (fs : FS) (session_file : String) (ocr_json_path : String)
    (question_index : Int) : FS :=
  fun q =>
    if q = session_file then
      .json (.obj [("ocr_json_path", .str ocr_json_path),
                   ("last_question_index", .int question_index)])
    else fs q

/-- Model of `SessionManager.load_session()`. -/
def load_session (fs : FS) (session_file : String) : Option JValue :=
  match fs session_file with
  | .json v => some v
  | _ => none

/-! ### Entry-point file validation (main.py)

`FileValidator.validate_files` collects `f"{path.name}: {path}"` for every
missing path; `validate_required_files` calls `sys.exit(1)` when the list
is nonempty; `main` only reaches `run_application` when it does not.
`Path.name` is modeled as the last `/`-separated component. -/

/-- Model of `Path(p).name`: the last `/`-separated component. -/
def pathName (p : String) : String :=
  ((p.splitOn "/").getLast?).getD p

/-- Model of `FileValidator.validate_files(file_paths)`: `(is_valid, missing)`. -/
def validate_files (pathExists : String → Bool) (file_paths : List String) :
    Bool × List String :=
  let missing := (file_paths.filter (fun p => !pathExists p)).map
    (fun p => pathName p ++ ": " ++ p)
  (missing.isEmpty, missing)

/-- Model of `validate_required_files(pdf, bbox, ocr)`: `sys.exit(1)` (modeled as
`Except.error` carrying the exit code) when a required file is missing. -/
def validate_required_files (pathExists : String → Bool)
    (pdf_path bbox_path ocr_path : String) : Except Nat Unit :=
  if (validate_files pathExists [pdf_path, bbox_path, ocr_path]).1 then .ok ()
  else .error 1

/-- The tail of `main()` after argument parsing: validation, then
`run_application` whose exit code is abstracted as `appResult` (it launches
the Qt UI); a `SystemExit` from validation becomes the process exit code. -/
def mainExitCode (pathExists : String → Bool)
    (pdf_path bbox_path ocr_path : String) (appResult : Int) : Int :=
  match validate_required_files pathExists pdf_path bbox_path ocr_path with
  | .error c => (c : Int)
  | .ok _ => appResult

/-! ### `extract_question_bboxes` (utils/extract_bbox.py)

The function body is only its docstring: it returns `None` and performs
no filesystem access, so it is a state transformer that leaves the
filesystem alone. -/

/-- Model of `extract_question_bboxes(pdf_path, question_json_path, bbox_json_path)`:
result filesystem and return value. -/
def extract_question_bboxes (fs : FS) (pdf_path question_json_path
    bbox_json_path : String) : FS × Option JValue :=
  (fs, none)

/-- The question record stored under full key `q` of the `"questions"`
entry of an OCR dictionary `o` (used to state the frame property of an
update). -/
def qEntry (o : List (String × JValue)) (q : String) : Option JValue :=
  match alookup o "questions" with
  | some (.obj qs) => alookup qs q
  | _ => none

theorem aset_not_isEmpty (l : List (String × JValue)) (k : String) (v : JValue) :
    (aset l k v).isEmpty = false := by
  cases l with
  | nil => rfl
  | cons hd tl =>
      obtain ⟨k1, v1⟩ := hd
      by_cases h : k1 = k <;> simp [aset, h]

/-! ## Theorems for the claims -/

/-- Claim C1: for every OCR dictionary `o`, question key `k` and record
`d`, `QuestionManager.update_question_ocr_data(k, d)` followed by
`DataManager.save_ocr_data` changes only the `"qn_<k>"` entry under
`ocr_data["questions"]`: every other question entry and every other
top-level field is unchanged, the OCR file is rewritten with exactly the
updated dictionary, and no other file changes. -/
theorem claim_C1 (o : List (String × JValue)) (k : String) (d : JValue)
    (p : String) (fs : FS) (hp : p ≠ "") :
    ∃ o2 : List (String × JValue),
      (update_question_ocr_data (some (.obj o)) k d).1 = some (.obj o2) ∧
      (∀ s, s ≠ "questions" → alookup o2 s = alookup o s) ∧
      (∀ q, q ≠ "qn_" ++ k → qEntry o2 q = qEntry o q) ∧
      (save_ocr_data fs (some p)
        (update_question_ocr_data (some (.obj o)) k d).1).2 = true ∧
      (save_ocr_data fs (some p)
        (update_question_ocr_data (some (.obj o)) k d).1).1 p
        = .json (.obj o2) ∧
      (∀ q, q ≠ p →
        (save_ocr_data fs (some p)
          (update_question_ocr_data (some (.obj o)) k d).1).1 q = fs q) := by
  cases hq : alookup o "questions" with
  | none =>
      refine ⟨aset o "questions" (.obj [("qn_" ++ k, d)]), ?_, ?_, ?_, ?_, ?_, ?_⟩
      · simp [update_question_ocr_data, hq]
      · intro s hs
        exact alookup_aset_ne _ _ _ _ hs
      · intro q hqk
        unfold qEntry
        rw [alookup_aset_self, hq]
        simp only [alookup]
        rw [if_neg (fun hh => hqk hh.symm)]
      · simp [update_question_ocr_data, hq, save_ocr_data, hp]
      · simp [update_question_ocr_data, hq, save_ocr_data, hp]
      · intro q hqp
        simp [update_question_ocr_data, hq, save_ocr_data, hp, hqp]
  | some v =>
      cases v with
      | obj qs =>
          refine ⟨aset o "questions" (.obj (aset qs ("qn_" ++ k) d)),
            ?_, ?_, ?_, ?_, ?_, ?_⟩
          · simp [update_question_ocr_data, hq]
          · intro s hs
            exact alookup_aset_ne _ _ _ _ hs
          · intro q hqk
            unfold qEntry
            rw [alookup_aset_self, hq]
            exact alookup_aset_ne qs ("qn_" ++ k) q d hqk
          · simp [update_question_ocr_data, hq, save_ocr_data, hp]
          · simp [update_question_ocr_data, hq, save_ocr_data, hp]
          · intro q hqp
            simp [update_question_ocr_data, hq, save_ocr_data, hp, hqp]
      | null =>
          refine ⟨o, ?_, fun _ _ => rfl, fun _ _ => rfl, ?_, ?_, ?_⟩
          · simp [update_question_ocr_data, hq]
          · simp [update_question_ocr_data, hq, save_ocr_data, hp]
          · simp [update_question_ocr_data, hq, save_ocr_data, hp]
          · intro q hqp
            simp [update_question_ocr_data, hq, save_ocr_data, hp, hqp]
      | bool b =>
          refine ⟨o, ?_, fun _ _ => rfl, fun _ _ => rfl, ?_, ?_, ?_⟩
          · simp [update_question_ocr_data, hq]
          · simp [update_question_ocr_data, hq, save_ocr_data, hp]
          · simp [update_question_ocr_data, hq, save_ocr_data, hp]
          · intro q hqp
            simp [update_question_ocr_data, hq, save_ocr_data, hp, hqp]
      | int n =>
          refine ⟨o, ?_, fun _ _ => rfl, fun _ _ => rfl, ?_, ?_, ?_⟩
          · simp [update_question_ocr_data, hq]
          · simp [update_question_ocr_data, hq, save_ocr_data, hp]
          · simp [update_question_ocr_data, hq, save_ocr_data, hp]
          · intro q hqp
            simp [update_question_ocr_data, hq, save_ocr_data, hp, hqp]
      | str t =>
          refine ⟨o, ?_, fun _ _ => rfl, fun _ _ => rfl, ?_, ?_, ?_⟩
          · simp [update_question_ocr_data, hq]
          · simp [update_question_ocr_data, hq, save_ocr_data, hp]
          · simp [update_question_ocr_data, hq, save_ocr_data, hp]
          · intro q hqp
            simp [update_question_ocr_data, hq, save_ocr_data, hp, hqp]
      | arr elems =>
          refine ⟨o, ?_, fun _ _ => rfl, fun _ _ => rfl, ?_, ?_, ?_⟩
          · simp [update_question_ocr_data, hq]
          · simp [update_question_ocr_data, hq, save_ocr_data, hp]
          · simp [update_question_ocr_data, hq, save_ocr_data, hp]
          · intro q hqp
            simp [update_question_ocr_data, hq, save_ocr_data, hp, hqp]

/-- Witness for C1 on a one-field OCR dictionary. -/
theorem claim_C1_witness :
    ("f.json" ≠ "") ∧
    (∃ o2 : List (String × JValue),
      (update_question_ocr_data
        (some (.obj [("examDetails", .str "e")])) "1" (.obj [])).1
        = some (.obj o2) ∧
      (∀ s, s ≠ "questions" →
        alookup o2 s = alookup [("examDetails", .str "e")] s) ∧
      (∀ q, q ≠ "qn_" ++ "1" →
        qEntry o2 q = qEntry [("examDetails", .str "e")] q) ∧
      (save_ocr_data (fun _ => .missing) (some "f.json")
        (update_question_ocr_data
          (some (.obj [("examDetails", .str "e")])) "1" (.obj [])).1).2 = true ∧
      (save_ocr_data (fun _ => .missing) (some "f.json")
        (update_question_ocr_data
          (some (.obj [("examDetails", .str "e")])) "1" (.obj [])).1).1 "f.json"
        = .json (.obj o2) ∧
      (∀ q, q ≠ "f.json" →
        (save_ocr_data (fun _ => .missing) (some "f.json")
          (update_question_ocr_data
            (some (.obj [("examDetails", .str "e")])) "1" (.obj [])).1).1 q
          = .missing)) :=
  ⟨by decide,
   claim_C1 [("examDetails", .str "e")] "1" (.obj []) "f.json"
     (fun _ => .missing) (by decide)⟩

/-- Claim C8: for every filesystem and every input triple
`(pdf_path, question_json_path, bbox_json_path)`, `extract_question_bboxes`
performs no computation and returns `None`: it leaves the filesystem
untouched (writes no output file) and its return value is `None`. -/
theorem claim_C8 (fs : FS) (pdf_path question_json_path bbox_json_path : String) :
    extract_question_bboxes fs pdf_path question_json_path bbox_json_path
      = (fs, none) :=
  rfl

/-- Claim C4: for every path string `p` and integer `i`,
`SessionManager.save_session(p, i)` followed by
`SessionManager.load_session` on the same session file returns a dictionary
whose `"ocr_json_path"` entry is `p` and whose `"last_question_index"`
entry is `i`. -/
theorem claim_C4 (fs : FS) (session_file p : String) (i : Int) :
    ∃ o : List (String × JValue),
      load_session (save_session fs session_file p i) session_file
        = some (.obj o) ∧
      alookup o "ocr_json_path" = some (.str p) ∧
      alookup o "last_question_index" = some (.int i) := by
  refine ⟨[("ocr_json_path", .str p), ("last_question_index", .int i)], ?_, rfl, rfl⟩
  simp [load_session, save_session]

/-- Claim C6: if any of the three resolved required files (the PDF, the
bbox JSON, or the OCR JSON) does not exist on the filesystem,
`validate_required_files` raises `SystemExit` with code 1 and the entry
point terminates with exit code 1 instead of running the application. -/
theorem claim_C6 (pathExists : String → Bool)
    (pdf_path bbox_path ocr_path : String) (appResult : Int)
    (h : pathExists pdf_path = false ∨ pathExists bbox_path = false ∨
      pathExists ocr_path = false) :
    validate_required_files pathExists pdf_path bbox_path ocr_path
      = .error 1 ∧
    mainExitCode pathExists pdf_path bbox_path ocr_path appResult = 1 := by
  have hv : (validate_files pathExists [pdf_path, bbox_path, ocr_path]).1 = false := by
    rcases h with h | h | h <;> simp [validate_files, h]
  refine ⟨?_, ?_⟩
  · simp [validate_required_files, hv]
  · simp [mainExitCode, validate_required_files, hv]

/-- Witness for C6 at a concrete missing file. -/
theorem claim_C6_witness :
    ((fun _ : String => false) "a.pdf" = false ∨
      (fun _ : String => false) "b.json" = false ∨
      (fun _ : String => false) "c.json" = false) ∧
    (validate_required_files (fun _ => false) "a.pdf" "b.json" "c.json"
        = .error 1 ∧
      mainExitCode (fun _ => false) "a.pdf" "b.json" "c.json" 0 = 1) :=
  ⟨Or.inl rfl,
   claim_C6 (fun _ => false) "a.pdf" "b.json" "c.json" 0 (Or.inl rfl)⟩

/-- Claim C7: `DataManager.load_all_data` is a total boolean-returning
function of the filesystem and its state (every failure is caught by the
guard or the `except Exception` block, never propagated): it returns
`False` whenever any of the three paths is `None`, and it returns `True`
exactly when all three paths are truthy, the PDF opens, and both JSON
files exist and parse. -/
theorem claim_C7 (fs : FS) (pdfOpenOK : String → Bool) (dm : DataManager) :
    ((dm.pdf_path = none ∨ dm.bbox_json_path = none ∨ dm.ocr_json_path = none) →
      (load_all_data fs pdfOpenOK dm).2 = false) ∧
    ((load_all_data fs pdfOpenOK dm).2 = true ↔
      ∃ pp bp op, dm.pdf_path = some pp ∧ dm.bbox_json_path = some bp ∧
        dm.ocr_json_path = some op ∧ pp ≠ "" ∧ bp ≠ "" ∧ op ≠ "" ∧
        pdfOpenOK pp = true ∧ (∃ bv, fs bp = .json bv) ∧
        (∃ ov, fs op = .json ov)) := by
  obtain ⟨pdfp, bboxp, ocrp, doc, bdata, odata⟩ := dm
  constructor
  · rintro (h | h | h) <;> subst h <;> simp [load_all_data, truthyPath]
  · constructor
    · intro htrue
      match pdfp, bboxp, ocrp with
      | none, _, _ => simp [load_all_data, truthyPath] at htrue
      | some pp, none, _ => simp [load_all_data, truthyPath] at htrue
      | some pp, some bp, none => simp [load_all_data, truthyPath] at htrue
      | some pp, some bp, some op =>
          refine ⟨pp, bp, op, rfl, rfl, rfl, ?_⟩
          by_cases hpp : pp = ""
          · simp [load_all_data, truthyPath, hpp] at htrue
          by_cases hbp : bp = ""
          · simp [load_all_data, truthyPath, hpp, hbp] at htrue
          by_cases hop : op = ""
          · simp [load_all_data, truthyPath, hpp, hbp, hop] at htrue
          refine ⟨hpp, hbp, hop, ?_⟩
          by_cases hok : pdfOpenOK pp
          · cases hfb : fs bp with
            | json bv =>
                cases hfo : fs op with
                | json ov => exact ⟨hok, ⟨bv, rfl⟩, ov, rfl⟩
                | missing =>
                    simp [load_all_data, truthyPath, hpp, hbp, hop, hok, hfb, hfo]
                      at htrue
                | malformed =>
                    simp [load_all_data, truthyPath, hpp, hbp, hop, hok, hfb, hfo]
                      at htrue
            | missing =>
                simp [load_all_data, truthyPath, hpp, hbp, hop, hok, hfb] at htrue
            | malformed =>
                simp [load_all_data, truthyPath, hpp, hbp, hop, hok, hfb] at htrue
          · simp [load_all_data, truthyPath, hpp, hbp, hop, hok] at htrue
    · rintro ⟨pp, bp, op, h1, h2, h3, hpp, hbp, hop, hok, ⟨bv, hfb⟩, ov, hfo⟩
      subst h1; subst h2; subst h3
      simp [load_all_data, truthyPath, hpp, hbp, hop, hok, hfb, hfo]

/-- Witness for C7: with every file present and parsing, the load reports
success. -/
theorem claim_C7_witness :
    (load_all_data (fun _ => .json .null) (fun _ => true)
        ⟨some "p.pdf", some "b.json", some "o.json", false, none, none⟩).2
      = true :=
  (claim_C7 (fun _ => .json .null) (fun _ => true)
      ⟨some "p.pdf", some "b.json", some "o.json", false, none, none⟩).2.mpr
    ⟨"p.pdf", "b.json", "o.json", rfl, rfl, rfl, by decide, by decide, by decide,
      rfl, ⟨.null, rfl⟩, ⟨.null, rfl⟩⟩

/-- Claim C9: `go_to_question(i)` returns `True` and sets the index to `i`
exactly when `0 <= i < len(question_keys)`; otherwise it returns `False`
and leaves the state unchanged; and `go_to_next`/`go_to_previous` return
`False` and change nothing at the respective boundary. -/
theorem claim_C9 (s : QMState) (i : Int) :
    ((go_to_question s i).2 = true ↔
      0 ≤ i ∧ i < (s.question_keys.length : Int)) ∧
    ((go_to_question s i).2 = true →
      (go_to_question s i).1 = { s with current_question_index := i }) ∧
    ((go_to_question s i).2 = false → (go_to_question s i).1 = s) ∧
    ((s.question_keys.length : Int) - 1 ≤ s.current_question_index →
      go_to_next s = (s, false)) ∧
    (s.current_question_index ≤ 0 → go_to_previous s = (s, false)) := by
  refine ⟨?_, ?_, ?_, ?_, ?_⟩
  · by_cases h : 0 ≤ i ∧ i < (s.question_keys.length : Int) <;>
      simp [go_to_question, h]
  · intro h
    by_cases hb : 0 ≤ i ∧ i < (s.question_keys.length : Int)
    · simp [go_to_question, hb]
    · simp [go_to_question, hb] at h
  · intro h
    by_cases hb : 0 ≤ i ∧ i < (s.question_keys.length : Int)
    · simp [go_to_question, hb] at h
    · simp [go_to_question, hb]
  · intro h
    have : ¬ can_go_next s = true := by
      simp only [can_go_next, decide_eq_true_eq]
      omega
    simp [go_to_next, this]
  · intro h
    have : ¬ can_go_previous s = true := by
      simp only [can_go_previous, decide_eq_true_eq]
      omega
    simp [go_to_previous, this]

/-- Witness for C9 on a one-question state: jumping to index 0 succeeds,
and both boundary moves refuse and leave the state unchanged. -/
theorem claim_C9_witness :
    ((go_to_question ⟨["1"], 0⟩ 0).2 = true) ∧
    go_to_next ⟨["1"], 0⟩ = (⟨["1"], 0⟩, false) ∧
    go_to_previous ⟨["1"], 0⟩ = (⟨["1"], 0⟩, false) :=
  ⟨(claim_C9 ⟨["1"], 0⟩ 0).1.mpr (by constructor <;> decide),
   (claim_C9 ⟨["1"], 0⟩ 0).2.2.2.1 (by decide),
   (claim_C9 ⟨["1"], 0⟩ 0).2.2.2.2 (by decide)⟩

/-- Counterexample to claim C10 as stated: with
`ocr_data = {"questions": 5}` the key `"1"` has no stored entry, yet
`get_question_ocr_data` raises `AttributeError` (calling `.get` on the
integer) instead of returning the empty dictionary. -/
theorem claim_C10_counterexample :
    storedEntry (some (.obj [("questions", .int 5)])) "1" = none ∧
    get_question_ocr_data (some (.obj [("questions", .int 5)])) "1"
      = .error .attributeError :=
  ⟨rfl, rfl⟩

/-- Claim C10 (amended): after `update_question_ocr_data(k, d)` returns
`True`, `get_question_ocr_data(k)` returns exactly `d`; and for every key
with no stored entry — including when `ocr_data` is `None` or has no
`"questions"` key — `get_question_ocr_data` returns the empty dictionary
without raising, provided that when `ocr_data` is a dict with a
`"questions"` entry that entry is itself a dict (otherwise the call raises
`AttributeError`). -/
theorem claim_C10 (ocr : Option JValue) (k : String) (d : JValue) :
    ((update_question_ocr_data ocr k d).2 = true →
      get_question_ocr_data (update_question_ocr_data ocr k d).1 k
        = .ok d) ∧
    (storedEntry ocr k = none → questionsFieldOK ocr = true →
      get_question_ocr_data ocr k = .ok (.obj [])) := by
  constructor
  · have main : ∀ o : List (String × JValue),
        (update_question_ocr_data (some (.obj o)) k d).2 = true →
        get_question_ocr_data (update_question_ocr_data (some (.obj o)) k d).1 k
          = .ok d := by
      intro o htrue
      cases hq : alookup o "questions" with
      | none =>
          have h1 : (update_question_ocr_data (some (.obj o)) k d).1
              = some (.obj (aset o "questions" (.obj [("qn_" ++ k, d)]))) := by
            simp [update_question_ocr_data, hq]
          rw [h1]
          simp only [get_question_ocr_data, aset_not_isEmpty, Bool.not_false,
            if_true]
          rw [alookup_aset_self]
          simp [alookup]
      | some v =>
          cases v with
          | obj qs =>
              have h1 : (update_question_ocr_data (some (.obj o)) k d).1
                  = some (.obj (aset o "questions"
                      (.obj (aset qs ("qn_" ++ k) d)))) := by
                simp [update_question_ocr_data, hq]
              rw [h1]
              simp only [get_question_ocr_data, aset_not_isEmpty, Bool.not_false,
                if_true]
              rw [alookup_aset_self]
              simp [alookup_aset_self]
          | null => simp [update_question_ocr_data, hq] at htrue
          | bool b => simp [update_question_ocr_data, hq] at htrue
          | int n => simp [update_question_ocr_data, hq] at htrue
          | str t => simp [update_question_ocr_data, hq] at htrue
          | arr elems => simp [update_question_ocr_data, hq] at htrue
    intro htrue
    match ocr with
    | some (.obj o) => exact main o htrue
    | none => exact main [] htrue
    | some .null => exact main [] htrue
    | some (.bool b) => exact main [] htrue
    | some (.int n) => exact main [] htrue
    | some (.str t) => exact main [] htrue
    | some (.arr elems) => exact main [] htrue
  · intro hnone hok
    match ocr with
    | none => rfl
    | some .null => rfl
    | some (.bool b) => rfl
    | some (.int n) => rfl
    | some (.str t) => rfl
    | some (.arr elems) => rfl
    | some (.obj o) =>
        by_cases he : o.isEmpty
        · simp [get_question_ocr_data, he]
        · cases hq : alookup o "questions" with
          | none => simp [get_question_ocr_data, he, hq]
          | some v =>
              cases v with
              | obj qs =>
                  have : alookup qs ("qn_" ++ k) = none := by
                    simpa [storedEntry, hq] using hnone
                  simp [get_question_ocr_data, he, hq, this]
              | null => simp [questionsFieldOK, hq] at hok
              | bool b => simp [questionsFieldOK, hq] at hok
              | int n => simp [questionsFieldOK, hq] at hok
              | str t => simp [questionsFieldOK, hq] at hok
              | arr elems => simp [questionsFieldOK, hq] at hok

/-- Witness for C10: a successful update is read back, and a key without
an entry reads as the empty dictionary. -/
theorem claim_C10_witness :
    get_question_ocr_data
        (update_question_ocr_data none "1" (.obj [])).1 "1" = .ok (.obj []) ∧
    get_question_ocr_data
        (some (.obj [("examDetails", .str "e")])) "2" = .ok (.obj []) :=
  ⟨(claim_C10 none "1" (.obj [])).1 rfl,
   (claim_C10 (some (.obj [("examDetails", .str "e")])) "2" (.obj [])).2 rfl rfl⟩

/-- Counterexample to claim C2 as stated: the freshly constructed manager
(empty call sequence) is reachable, has `question_keys = []` and index 0,
and 0 is not within `[0, len(question_keys)) = [0, 0)`. -/
theorem claim_C2_counterexample :
    qmRun none [] = initQMState ∧
    ¬(initQMState.current_question_index <
        ((initQMState.question_keys).length : Int)) :=
  ⟨rfl, by decide⟩

/-- Inductive invariant of the navigation state: either nothing was ever
initialized (empty keys, index 0), or the keys are the ones
`initialize_questions` computes for the fixed OCR data and the index is in
range. -/
def qmInv (ocr : Option JValue) (s : QMState) : Prop :=
  (s.question_keys = [] ∧ s.current_question_index = 0) ∨
  (initialize_questions_outcome ocr = .keysSet s.question_keys ∧
    0 ≤ s.current_question_index ∧
    s.current_question_index < (s.question_keys.length : Int))

theorem qmInv_step (ocr : Option JValue) (s : QMState) (op : QMOp)
    (h : qmInv ocr s) : qmInv ocr (qmStep ocr s op) := by
  cases op with
  | init =>
      cases hout : initialize_questions_outcome ocr with
      | raise =>
          have hstep : qmStep ocr s .init = s := by
            simp [qmStep, initialize_questions_step, hout]
          rw [hstep]; exact h
      | fail =>
          have hstep : qmStep ocr s .init = s := by
            simp [qmStep, initialize_questions_step, hout]
          rw [hstep]; exact h
      | keysSet ks =>
          have hstep : qmStep ocr s .init = { s with question_keys := ks } := by
            simp [qmStep, initialize_questions_step, hout]
          rw [hstep]
          rcases h with ⟨hk, hi⟩ | ⟨hout2, h0, hlen⟩
          · cases hks : ks with
            | nil =>
                subst hks
                exact Or.inl ⟨rfl, hi⟩
            | cons a rest =>
                subst hks
                refine Or.inr ⟨hout, ?_, ?_⟩
                · show 0 ≤ s.current_question_index
                  omega
                · show s.current_question_index < ((a :: rest).length : Int)
                  simp only [List.length_cons]
                  omega
          · have hks : ks = s.question_keys := by
              rw [hout] at hout2
              cases hout2
              rfl
            subst hks
            exact Or.inr ⟨hout, h0, hlen⟩
  | goto i =>
      by_cases hb : 0 ≤ i ∧ i < (s.question_keys.length : Int)
      · have hstep : qmStep ocr s (.goto i)
            = { s with current_question_index := i } := by
          simp [qmStep, go_to_question, hb]
        rw [hstep]
        refine Or.inr ?_
        rcases h with ⟨hk, hi⟩ | ⟨hout, h0, hlen⟩
        · rw [hk] at hb
          simp at hb
          omega
        · exact ⟨hout, hb.1, hb.2⟩
      · have hstep : qmStep ocr s (.goto i) = s := by
          simp [qmStep, go_to_question, hb]
        rw [hstep]
        exact h
  | next =>
      by_cases hb : can_go_next s = true
      · have hlt : s.current_question_index <
            (s.question_keys.length : Int) - 1 := by
          simpa [can_go_next] using hb
        have hstep : qmStep ocr s .next
            = { s with current_question_index := s.current_question_index + 1 } := by
          simp [qmStep, go_to_next, hb]
        rw [hstep]
        rcases h with ⟨hk, hi⟩ | ⟨hout, h0, hlen⟩
        · rw [hk] at hlt
          simp at hlt
          omega
        · refine Or.inr ⟨hout, ?_, ?_⟩
          · show 0 ≤ s.current_question_index + 1
            omega
          · show s.current_question_index + 1 < (s.question_keys.length : Int)
            omega
      · have hstep : qmStep ocr s .next = s := by
          simp [qmStep, go_to_next, hb]
        rw [hstep]
        exact h
  | prev =>
      by_cases hb : can_go_previous s = true
      · have hlt : 0 < s.current_question_index := by
          simpa [can_go_previous] using hb
        have hstep : qmStep ocr s .prev
            = { s with current_question_index := s.current_question_index - 1 } := by
          simp [qmStep, go_to_previous, hb]
        rw [hstep]
        rcases h with ⟨hk, hi⟩ | ⟨hout, h0, hlen⟩
        · omega
        · refine Or.inr ⟨hout, ?_, ?_⟩
          · show 0 ≤ s.current_question_index - 1
            omega
          · show s.current_question_index - 1 < (s.question_keys.length : Int)
            omega
      · have hstep : qmStep ocr s .prev = s := by
          simp [qmStep, go_to_previous, hb]
        rw [hstep]
        exact h

theorem qmRun_inv (ocr : Option JValue) (ops : List QMOp) :
    qmInv ocr (qmRun ocr ops) := by
  suffices h : ∀ s, qmInv ocr s → qmInv ocr (ops.foldl (qmStep ocr) s) from
    h initQMState (Or.inl ⟨rfl, rfl⟩)
  induction ops with
  | nil => exact fun s hs => hs
  | cons op rest ih => exact fun s hs => ih _ (qmInv_step ocr s op hs)

/-- Claim C2 (amended): for every state reachable from a freshly
constructed manager by `initialize_questions`, `go_to_question`,
`go_to_next` and `go_to_previous` calls, the navigation index stays within
`[0, max(1, len(question_keys)))`; in particular it is in
`[0, len(question_keys))` whenever `question_keys` is nonempty, while the
fresh state has index 0 with no keys. -/
theorem claim_C2 (ocr : Option JValue) (ops : List QMOp) :
    0 ≤ (qmRun ocr ops).current_question_index ∧
    (qmRun ocr ops).current_question_index <
      max 1 ((qmRun ocr ops).question_keys.length : Int) := by
  rcases qmRun_inv ocr ops with ⟨hk, hi⟩ | ⟨_, h0, hlen⟩
  · rw [hi]
    exact ⟨le_refl 0, lt_max_iff.mpr (Or.inl one_pos)⟩
  · exact ⟨h0, lt_max_iff.mpr (Or.inr hlen)⟩

/-- The `questionText` entry is absent or a string: the shapes on which
`data.get('questionText', '').strip()` does not raise. -/
def questionTextOK (data : List (String × JValue)) : Bool :=
  match alookup data "questionText" with
  | none => true
  | some (.str _) => true
  | some _ => false

/-- The `options` entry (defaulting to `[]`) has a Python length: the
shapes on which `len(options)` does not raise. -/
def optionsSized (data : List (String × JValue)) : Bool :=
  (pyLen ((alookup data "options").getD (.arr []))).isSome

/-- Counterexample to claim C3 as stated: on the dictionary
`{"questionText": 1, "options": ["a", "b"], "correctOption": 0}` the value
of `correctOption` is 0, outside `[1, 2]`, yet `validate_question_data`
does not produce an error list and an invalid result — it raises
`AttributeError` on `(1).strip()` before reaching the check. -/
theorem claim_C3_counterexample :
    pyIntOfJValue ((alookup
        [("questionText", .int 1), ("options", .arr [.str "a", .str "b"]),
         ("correctOption", .int 0)] "correctOption").getD (.int 0))
      = some 0 ∧
    ¬(1 ≤ (0 : Int) ∧ (0 : Int) ≤ 2) ∧
    validate_question_data
        [("questionText", .int 1), ("options", .arr [.str "a", .str "b"]),
         ("correctOption", .int 0)]
      = .error .attributeError :=
  ⟨rfl, by decide, rfl⟩

/-- Claim C3 (amended): for every question-data dictionary whose
`questionText` entry is absent or a string and whose `options` entry is
absent or has a length, `validate_question_data` returns normally; it
reports the data valid (`True` with an empty error list) only if
`int(correctOption)` succeeds with a value within `[1, len(options)]`; and
whenever `correctOption` has no such in-range value the result is invalid
with a nonempty error list. -/
theorem claim_C3 (data : List (String × JValue))
    (h1 : questionTextOK data = true) (h2 : optionsSized data = true) :
    ∃ valid errs, validate_question_data data = .ok (valid, errs) ∧
      (valid = true → errs = [] ∧ ∃ v : Int,
        pyIntOfJValue ((alookup data "correctOption").getD (.int 0)) = some v ∧
        1 ≤ v ∧
        v ≤ (((pyLen ((alookup data "options").getD (.arr []))).getD 0 : Nat) : Int)) ∧
      ((∀ v : Int,
          pyIntOfJValue ((alookup data "correctOption").getD (.int 0)) = some v →
          ¬(1 ≤ v ∧
            v ≤ (((pyLen ((alookup data "options").getD (.arr []))).getD 0 : Nat) : Int))) →
        valid = false ∧ errs ≠ []) := by
  obtain ⟨qt, hq⟩ : ∃ qt : String,
      (alookup data "questionText").getD (.str "") = .str qt := by
    cases halq : alookup data "questionText" with
    | none => exact ⟨"", rfl⟩
    | some v =>
        cases v with
        | str t => exact ⟨t, rfl⟩
        | null => simp [questionTextOK, halq] at h1
        | bool b => simp [questionTextOK, halq] at h1
        | int n => simp [questionTextOK, halq] at h1
        | arr elems => simp [questionTextOK, halq] at h1
        | obj fields => simp [questionTextOK, halq] at h1
  obtain ⟨n, hn⟩ : ∃ n, pyLen ((alookup data "options").getD (.arr [])) = some n := by
    cases hl : pyLen ((alookup data "options").getD (.arr [])) with
    | none => simp [optionsSized, hl] at h2
    | some m => exact ⟨m, rfl⟩
  set co := pyIntOfJValue ((alookup data "correctOption").getD (.int 0)) with hco
  set A := (if (pyStrip qt).isEmpty then ["Question text cannot be empty"]
    else ([] : List String)) with hA
  set B := (if n < 2 then ["At least 2 options required"]
    else ([] : List String)) with hB
  set C := (match co with
    | some v =>
        if 1 ≤ v ∧ v ≤ (n : Int) then ([] : List String)
        else ["Correct option index out of range"]
    | none => ["Correct option must be a valid number"]) with hC
  have hval : validate_question_data data = .ok (((A ++ B) ++ C).isEmpty,
      (A ++ B) ++ C) := by
    unfold validate_question_data
    rw [hq, hn]
  have hCnone : co = none → C = ["Correct option must be a valid number"] := by
    intro h
    rw [hC, h]
  have hCin : ∀ v : Int, co = some v → (1 ≤ v ∧ v ≤ (n : Int)) → C = [] := by
    intro v h hr
    rw [hC, h]
    exact if_pos hr
  have hCout : ∀ v : Int, co = some v → ¬(1 ≤ v ∧ v ≤ (n : Int)) →
      C = ["Correct option index out of range"] := by
    intro v h hr
    rw [hC, h]
    exact if_neg hr
  refine ⟨((A ++ B) ++ C).isEmpty, (A ++ B) ++ C, hval, ?_, ?_⟩
  · intro hvalid
    rw [List.isEmpty_iff] at hvalid
    obtain ⟨hab, hC0⟩ := List.append_eq_nil.mp hvalid
    obtain ⟨hA0, hB0⟩ := List.append_eq_nil.mp hab
    refine ⟨by simp [hA0, hB0, hC0], ?_⟩
    cases hcv : co with
    | none =>
        rw [hCnone hcv] at hC0
        exact absurd hC0 (List.cons_ne_nil _ _)
    | some v =>
        by_cases hrange : 1 ≤ v ∧ v ≤ (n : Int)
        · refine ⟨v, rfl, hrange.1, ?_⟩
          rw [hn]
          simpa using hrange.2
        · rw [hCout v hcv hrange] at hC0
          exact absurd hC0 (List.cons_ne_nil _ _)
  · intro hbad
    have hcne : C ≠ [] := by
      cases hcv : co with
      | none =>
          rw [hCnone hcv]
          exact List.cons_ne_nil _ _
      | some v =>
          have hnr : ¬(1 ≤ v ∧ v ≤ (n : Int)) := by
            have hb2 := hbad v hcv
            rw [hn] at hb2
            simpa using hb2
          rw [hCout v hcv hnr]
          exact List.cons_ne_nil _ _
    have hne : (A ++ B) ++ C ≠ [] :=
      fun habs => hcne (List.append_eq_nil.mp habs).2
    constructor
    · cases hl : (A ++ B) ++ C with
      | nil => exact absurd hl hne
      | cons x xs => rfl
    · exact hne

/-- Witness for C3 on a well-formed record with a valid answer index. -/
theorem claim_C3_witness :
    questionTextOK
        [("questionText", .str "q"), ("options", .arr [.str "a", .str "b"]),
         ("correctOption", .int 1)] = true ∧
    optionsSized
        [("questionText", .str "q"), ("options", .arr [.str "a", .str "b"]),
         ("correctOption", .int 1)] = true ∧
    ∃ valid errs, validate_question_data
        [("questionText", .str "q"), ("options", .arr [.str "a", .str "b"]),
         ("correctOption", .int 1)] = .ok (valid, errs) :=
  ⟨rfl, rfl, by
    obtain ⟨valid, errs, heq, -, -⟩ :=
      claim_C3
        [("questionText", .str "q"), ("options", .arr [.str "a", .str "b"]),
         ("correctOption", .int 1)] rfl rfl
    exact ⟨valid, errs, heq⟩⟩

/-- Counterexample to claim C5 as stated: with the questions mapping
`{"qn_05": {}}`, `initialize_questions` returns `True` and sets
`question_keys = ["5"]`, although `"qn_5"` is not a key of the mapping —
there is no integer `N` whose decimal form gives a key `"qn_<N>"`, so the
claimed key list would be empty. -/
theorem claim_C5_counterexample :
    initialize_questions_outcome
        (some (.obj [("questions", .obj [("qn_05", .obj [])])]))
      = .keysSet ["5"] ∧
    alookup [("qn_05", (.obj [] : JValue))] "qn_5" = none :=
  ⟨by decide, rfl⟩

/-- Claim C5 (amended): when the OCR dictionary holds a `"questions"`
mapping, `initialize_questions` sets `question_keys` to the decimal string
forms of the values `int(key[3:])` of exactly those keys of the mapping
that start with `"qn_"` and whose remainder parses under Python `int`
(one entry per such key), in ascending numeric order — so keys such as
`"qn_05"` contribute the canonical form `"5"` — skipping unparsable keys
without aborting, and it returns `True` exactly when the resulting list is
nonempty. -/
theorem claim_C5 (o qs : List (String × JValue))
    (h : alookup o "questions" = some (.obj qs)) :
    ∃ ns : List Int,
      initialize_questions_outcome (some (.obj o))
        = .keysSet (ns.map (fun n => toString n)) ∧
      ns.Sorted (· ≤ ·) ∧
      ns.Perm ((qs.map Prod.fst).filterMap parseQnKey) ∧
      ∀ s : QMState,
        initialize_questions_step (some (.obj o)) s
          = ({ s with question_keys := ns.map (fun n => toString n) },
             !(ns.map (fun n => toString n)).isEmpty) := by
  have hne : o ≠ [] := by
    intro habs
    rw [habs] at h
    simp [alookup] at h
  have htr : jTruthy (.obj o) = true := by
    simp [jTruthy, List.isEmpty_iff, hne]
  have hout : initialize_questions_outcome (some (.obj o))
      = .keysSet (computeQuestionKeys qs) := by
    simp [initialize_questions_outcome, htr, h]
  refine ⟨List.insertionSort (fun a b => a ≤ b)
    ((qs.map Prod.fst).filterMap parseQnKey), ?_, ?_, ?_, ?_⟩
  · rw [hout]
    rfl
  · exact List.sorted_insertionSort _ _
  · exact List.perm_insertionSort _ _
  · intro s
    rw [initialize_questions_step, hout]
    rfl

/-- Witness for C5 on a two-question mapping listed out of order. -/
theorem claim_C5_witness :
    ∃ ns : List Int,
      initialize_questions_outcome
          (some (.obj [("questions",
            .obj [("qn_2", .obj []), ("qn_1", .obj [])])]))
        = .keysSet (ns.map (fun n => toString n)) := by
  obtain ⟨ns, h1, -, -, -⟩ :=
    claim_C5 [("questions", .obj [("qn_2", .obj []), ("qn_1", .obj [])])]
      [("qn_2", .obj []), ("qn_1", .obj [])] rfl
  exact ⟨ns, h1⟩

end PdfChecker